import Mathlib

/-!
Verification development for the shape-runner repository.

The development shallowly embeds the core of the program:

* `src/types.rs`: the schema model (`TypeDef`), validation errors
  (`ValidationError`) and the structural validator (`validate` /
  `validate_inner`).  The Rust validator pushes errors into a mutable
  `Vec`; the embedding passes the accumulated error list explicitly.
* `src/llm.rs`: the response sanitizer (`clean_json_response`), the prompt
  builders (`build_prompt`, `build_formation_prompt`, `describe_schema`)
  and the two retry orchestrators (`generate_feature_design`,
  `generate_formation`).  The orchestrators' `for attempt in 0..3` loop is
  embedded as a recursion on the remaining number of attempts.
* `src/shape.rs`: the task input/output records and the two schemas
  (`feature_design_output_typedef`, `formation_output_typedef`).

External collaborators are embedded as parameters, exactly at the
interfaces the source uses them:

* `serde_json::Value` is embedded as the inductive `Json`.  The payload of
  a JSON number is modelled as `Int`; no claim depends on numeric values,
  only on a value being a number (and every `serde_json` number converts
  to an `f64`, so a number-payload decode never fails).
* `serde_json::from_str` (JSON text parsing) is a parameter
  `parse : String → Except String Json` of the orchestrators; its error
  value models the parser diagnostic string.
* the HTTP model caller is a parameter
  `respond : Nat → String → Except String String` giving, per attempt
  index and prompt, either the raw response text or a transport error.
  The source's `call_llm` dispatches on `is_ollama`: the Ollama branch
  sanitizes the body with `clean_json_response`, the mock-server branch
  returns the body unchanged; `call_llm_text` embeds exactly that.
* `serde_json::from_value::<T>` for the two output records is embedded by
  the concrete decoders `decode_feature_design_output` and
  `decode_formation_output` (field lookup by name, required fields,
  unknown fields ignored).

Rust strings are embedded as Lean `String`s, and the character-level
sanitizer operations as recursions over `List Char`.
-/

/-! ## JSON values (embedding of `serde_json::Value`) -/

inductive Json where
  | null
  | bool (b : Bool)
  | num (n : Int)
  | str (s : String)
  | arr (items : List Json)
  | obj (fields : List (String × Json))

/-- Lookup of a field by name in a JSON object, embedding
`serde_json::Map::get`.  The first binding wins; a `serde_json` map never
holds duplicate keys, and both the validator and the decoders go through
this single lookup. -/
def lookupField (kvs : List (String × Json)) (name : String) : Option Json :=
  match kvs with
  | [] => none
  | (k, v) :: rest => if k = name then some v else lookupField rest name

/-! ## Schema model and validator (`src/types.rs`) -/

/-- `TypeDef` from `src/types.rs`.  A `FieldDef { name, ty }` of the source
is embedded as the pair `(name, ty)`. -/
inductive TypeDef where
  | Text
  | Markdown
  | Number
  | Bool
  | List (inner : TypeDef)
  | Object (fields : List (String × TypeDef))

/-- `ValidationError` from `src/types.rs`.  `expected`/`found` are plain
strings (the formation orchestrator fills them with formatted text). -/
inductive ValidationError where
  | MissingField (path : String)
  | TypeMismatch (path : String) (expected : String) (found : String)
deriving DecidableEq

/-- The `Display` implementation of `ValidationError`. -/
def ValidationError.display : ValidationError → String
  | .MissingField path => "Missing required field at path " ++ path
  | .TypeMismatch path expected found =>
    "Type mismatch at " ++ path ++ ": expected " ++ expected ++ ", found " ++ found

/-- `value_type_name` from `src/types.rs`. -/
def value_type_name : Json → String
  | .null => "null"
  | .bool _ => "boolean"
  | .num _ => "number"
  | .str _ => "string"
  | .arr _ => "array"
  | .obj _ => "object"

/-- The element loop of the `List` arm of `validate_inner`: each element is
validated at path `path[idx]`, the accumulated error list threading through. -/
def validate_items (f : Json → String → List ValidationError → List ValidationError) :
    List Json → String → Nat → List ValidationError → List ValidationError
  | [], _, _, errors => errors
  | item :: rest, path, idx, errors =>
    validate_items f rest path (idx + 1) (f item (path ++ "[" ++ toString idx ++ "]") errors)

mutual

/-- `validate_inner` from `src/types.rs`.  The `&mut Vec<ValidationError>`
accumulator of the source is the explicit `errors` argument; a push becomes
an append at the end. -/
def validate_inner : TypeDef → Json → String → List ValidationError → List ValidationError
  | .Text, v, path, errors =>
    if v matches .str _ then errors
    else errors ++ [.TypeMismatch path "string" (value_type_name v)]
  | .Markdown, v, path, errors =>
    if v matches .str _ then errors
    else errors ++ [.TypeMismatch path "string" (value_type_name v)]
  | .Number, v, path, errors =>
    if v matches .num _ then errors
    else errors ++ [.TypeMismatch path "number" (value_type_name v)]
  | .Bool, v, path, errors =>
    if v matches .bool _ then errors
    else errors ++ [.TypeMismatch path "boolean" (value_type_name v)]
  | .List inner, v, path, errors =>
    match v with
    | .arr items => validate_items (fun it p errs => validate_inner inner it p errs) items path 0 errors
    | _ => errors ++ [.TypeMismatch path "array" (value_type_name v)]
  | .Object fields, v, path, errors =>
    match v with
    | .obj kvs => validate_fields fields kvs path errors
    | _ => errors ++ [.TypeMismatch path "object" (value_type_name v)]

/-- The field loop of the `Object` arm of `validate_inner`: a declared
field that is absent contributes `MissingField`, a present one is validated
recursively; undeclared keys of the value are never consulted. -/
def validate_fields : List (String × TypeDef) → List (String × Json) → String → List ValidationError → List ValidationError
  | [], _, _, errors => errors
  | (name, ty) :: rest, kvs, path, errors =>
    let field_path := path ++ "." ++ name
    let errors' :=
      match lookupField kvs name with
      | none => errors ++ [.MissingField field_path]
      | some v => validate_inner ty v field_path errors
    validate_fields rest kvs path errors'

end

/-- `validate` from `src/types.rs`. -/
def validate (ty : TypeDef) (value : Json) : Except (List ValidationError) Unit :=
  let errors := validate_inner ty value "$" []
  if errors.isEmpty then .ok () else .error errors

/-! ## Response sanitizer (`clean_json_response`, `src/llm.rs`)

The sanitizer works on Rust `&str` slices; it is embedded stage by stage
over `List Char`. -/

/-- Whitespace as accepted by `str::trim` (the characters that occur in
this code base). -/
def isWS (c : Char) : Bool := c = ' ' || c = '\t' || c = '\n' || c = '\r'

/-- `str::trim`: drop whitespace from both ends. -/
def trimChars (cs : List Char) : List Char :=
  ((cs.dropWhile isWS).reverse.dropWhile isWS).reverse

/-- The markdown-fence stripping stage: if the text starts with three
backticks, drop everything up to and including the first newline (or just
the three backticks when there is no newline), and drop a trailing
three-backtick fence if present. -/
def strip_fences (cs : List Char) : List Char :=
  if cs.take 3 = ['`', '`', '`'] then
    let afterOpen :=
      match cs.findIdx? (· = '\n') with
      | some idx => cs.drop (idx + 1)
      | none => cs.drop 3
    if afterOpen.reverse.take 3 = ['`', '`', '`'] then
      afterOpen.take (afterOpen.length - 3)
    else
      afterOpen
  else cs

/-- The brace-depth scan of the extraction stage: starting from the first
`{`, find the index at which the running count of `{` minus `}` returns to
zero (the source breaks out of its loop at that point). -/
def findCloseAux : List Char → Int → Nat → Option Nat
  | [], _, _ => none
  | c :: rest, depth, i =>
    if c = '{' then findCloseAux rest (depth + 1) (i + 1)
    else if c = '}' then
      if depth - 1 = 0 then some i else findCloseAux rest (depth - 1) (i + 1)
    else findCloseAux rest depth (i + 1)

/-- `str::find`: index of the first occurrence of a character. -/
def firstIdxOf (ch : Char) (cs : List Char) : Option Nat := cs.findIdx? (· = ch)

/-- `str::rfind`: index of the last occurrence of a character. -/
def lastIdxOf (ch : Char) : List Char → Option Nat
  | [] => none
  | c :: rest =>
    match lastIdxOf ch rest with
    | some j => some (j + 1)
    | none => if c = ch then some 0 else none

/-- The JSON-object extraction stage of `clean_json_response`: slice from
the first `{` to its depth-matching `}`; if the depth count never closes,
fall back to the last `}` when it lies after the first `{`. -/
def brace_slice (cs : List Char) : List Char :=
  match firstIdxOf '{' cs with
  | none => cs
  | some first =>
    let tail := cs.drop first
    match findCloseAux tail 0 0 with
    | some i => tail.take (i + 1)
    | none =>
      match lastIdxOf '}' cs with
      | some fb => if first < fb then (cs.drop first).take (fb - first + 1) else cs
      | none => cs

/-- The control-character stage of `clean_json_response`: newline and tab
become a space, every other code point below `0x20` is dropped, everything
else is kept. -/
def control_filter (cs : List Char) : List Char :=
  cs.filterMap (fun c =>
    if c.toNat < 0x20 then
      if c = '\n' then some ' '
      else if c = '\t' then some ' '
      else none
    else some c)

/-- `str::replace` specialised to a two-character pattern `[a, b]`:
left-to-right, non-overlapping, the replacement text is not rescanned. -/
def repl2 (a b : Char) (rep : List Char) : List Char → List Char
  | [] => []
  | [c] => [c]
  | c1 :: c2 :: rest =>
    if c1 = a ∧ c2 = b then rep ++ repl2 a b rep rest
    else c1 :: repl2 a b rep (c2 :: rest)

/-- `str::replace` specialised to a three-character pattern `[a, b, c]`. -/
def repl3 (a b c : Char) (rep : List Char) : List Char → List Char
  | [] => []
  | [x] => [x]
  | [x, y] => [x, y]
  | c1 :: c2 :: c3 :: rest =>
    if c1 = a ∧ c2 = b ∧ c3 = c then rep ++ repl3 a b c rep rest
    else c1 :: repl3 a b c rep (c2 :: c3 :: rest)

/-- The full pipeline of `clean_json_response`, in source order: trim,
strip fences, trim, extract the brace-delimited object, filter control
characters, trim, replace the four trailing-comma patterns `",}"`, `",]"`,
`", }"`, `", ]"`, and trim once more. -/
def clean_chars (cs : List Char) : List Char :=
  let c1 := trimChars cs
  let c2 := strip_fences c1
  let c3 := trimChars c2
  let c4 := brace_slice c3
  let c5 := control_filter c4
  let c6 := trimChars c5
  let c7 := repl2 ',' '}' ['}'] c6
  let c8 := repl2 ',' ']' [']'] c7
  let c9 := repl3 ',' ' ' '}' ['}'] c8
  let c10 := repl3 ',' ' ' ']' [']'] c9
  trimChars c10

/-- `clean_json_response` from `src/llm.rs`. -/
def clean_json_response (s : String) : String := ⟨clean_chars s.data⟩

/-! ## Task records and schemas (`src/shape.rs`) -/

structure FeatureDesignInput where
  repo_summary : String
  constraints : List String

structure Component where
  id : String
  responsibility : String
  api : String
deriving DecidableEq

structure FeatureDesignOutput where
  name : String
  rationale : String
  components : List Component
  risks : List String
deriving DecidableEq

structure FormationInput where
  formation_description : String
  unit_count : Nat

/-- A 2D coordinate; the `f64` payloads are modelled like JSON number
payloads (no claim depends on their numeric value). -/
structure Coordinate where
  x : Int
  y : Int
deriving DecidableEq

structure FormationOutput where
  coordinates : List Coordinate
deriving DecidableEq

/-- `feature_design_output_typedef` from `src/shape.rs`. -/
def feature_design_output_typedef : TypeDef :=
  .Object [
    ("name", .Text),
    ("rationale", .Markdown),
    ("components", .List (.Object [
      ("id", .Text),
      ("responsibility", .Text),
      ("api", .Markdown)])),
    ("risks", .List .Text)]

/-- `formation_output_typedef` from `src/shape.rs`. -/
def formation_output_typedef : TypeDef :=
  .Object [
    ("coordinates", .List (.Object [
      ("x", .Number),
      ("y", .Number)]))]

/-! ## Decoders (embedding of `serde_json::from_value::<T>`) -/

/-- Decoding a JSON value into a Rust `String`: only a JSON string is
accepted. -/
def decode_string : Json → Option String
  | .str s => some s
  | _ => none

/-- Decoding a JSON value into an `f64`: every JSON number converts
(`u64`, `i64` and `f64` payloads all have an `f64` image); anything else
is rejected. -/
def decode_number : Json → Option Int
  | .num n => some n
  | _ => none

/-- Decoding a JSON array element-wise; a single failing element fails the
whole array, exactly like `serde` sequence decoding. -/
def decode_list {α : Type} (f : Json → Option α) : List Json → Option (List α)
  | [] => some []
  | v :: rest =>
    match f v, decode_list f rest with
    | some a, some as_ => some (a :: as_)
    | _, _ => none

/-- `serde_json::from_value::<Component>`: an object with string fields
`id`, `responsibility`, `api`; unknown fields are ignored. -/
def decode_component (v : Json) : Option Component :=
  match v with
  | .obj kvs =>
    match lookupField kvs "id", lookupField kvs "responsibility", lookupField kvs "api" with
    | some vid, some vresp, some vapi =>
      match decode_string vid, decode_string vresp, decode_string vapi with
      | some id, some responsibility, some api => some ⟨id, responsibility, api⟩
      | _, _, _ => none
    | _, _, _ => none
  | _ => none

/-- `serde_json::from_value::<FeatureDesignOutput>`. -/
def decode_feature_design_output (v : Json) : Option FeatureDesignOutput :=
  match v with
  | .obj kvs =>
    match lookupField kvs "name", lookupField kvs "rationale",
        lookupField kvs "components", lookupField kvs "risks" with
    | some vname, some vrat, some vcomp, some vrisks =>
      match decode_string vname, decode_string vrat with
      | some name, some rationale =>
        match vcomp, vrisks with
        | .arr comps, .arr risks =>
          match decode_list decode_component comps, decode_list decode_string risks with
          | some components, some rs => some ⟨name, rationale, components, rs⟩
          | _, _ => none
        | _, _ => none
      | _, _ => none
    | _, _, _, _ => none
  | _ => none

/-- `serde_json::from_value::<Coordinate>`: an object with number fields
`x` and `y`; unknown fields are ignored. -/
def decode_coordinate (v : Json) : Option Coordinate :=
  match v with
  | .obj kvs =>
    match lookupField kvs "x", lookupField kvs "y" with
    | some vx, some vy =>
      match decode_number vx, decode_number vy with
      | some x, some y => some ⟨x, y⟩
      | _, _ => none
    | _, _ => none
  | _ => none

/-- `serde_json::from_value::<FormationOutput>`. -/
def decode_formation_output (v : Json) : Option FormationOutput :=
  match v with
  | .obj kvs =>
    match lookupField kvs "coordinates" with
    | some (.arr items) =>
      match decode_list decode_coordinate items with
      | some coordinates => some ⟨coordinates⟩
      | none => none
    | _ => none
  | _ => none

/-! ## Prompt builders (`src/llm.rs`) -/

/-- The indentation padding `" ".repeat(indent)` of `describe_schema`. -/
def pad (indent : Nat) : String := ⟨List.replicate indent ' '⟩

mutual

/-- `describe_schema` from `src/llm.rs`: the human-readable schema
rendering that goes into every prompt. -/
def describe_schema : TypeDef → Nat → String
  | .Text, indent => pad indent ++ "- string\n"
  | .Markdown, indent => pad indent ++ "- string (markdown)\n"
  | .Number, indent => pad indent ++ "- number\n"
  | .Bool, indent => pad indent ++ "- boolean\n"
  | .List inner, indent => pad indent ++ "- array of:\n" ++ describe_schema inner (indent + 2)
  | .Object fields, indent => pad indent ++ "- object with fields:\n" ++ describe_fields fields indent
termination_by ty _ => sizeOf ty

/-- The field loop of the `Object` arm of `describe_schema`. -/
def describe_fields : List (String × TypeDef) → Nat → String
  | [], _ => ""
  | (name, ty) :: rest, indent =>
    pad indent ++ "  - " ++ name ++ ": " ++
    (match ty with
     | .Text => "string\n"
     | .Markdown => "string (markdown)\n"
     | .Number => "number\n"
     | .Bool => "boolean\n"
     | .List inner => "array of:\n" ++ describe_schema inner (indent + 4)
     | .Object g => "nested object:\n" ++ describe_schema (.Object g) (indent + 4)) ++
    describe_fields rest indent
termination_by fields _ => sizeOf fields

end

/-- The constraints loop of `build_prompt`: one `"  - c\n"` line per
constraint. -/
def constraint_lines : List String → String
  | [] => ""
  | c :: rest => "  - " ++ c ++ "\n" ++ constraint_lines rest

/-- The error loop shared by both prompt builders: one `"- <error>\n"`
line per validation error, using the `Display` rendering. -/
def error_lines : List ValidationError → String
  | [] => ""
  | e :: rest => "- " ++ (ValidationError.display e ++ ("\n" ++ error_lines rest))

/-- The `last_json_error` feedback block appended by both prompt
builders. -/
def json_error_block : Option String → String
  | none => ""
  | some json_err =>
    "\nYour previous response was not valid JSON. The error was:\n" ++
    (json_err ++
     "\n\nPlease output ONLY valid, parseable JSON without any control characters or formatting issues.\n")

/-- The `last_errors` feedback block appended by both prompt builders. -/
def validation_error_block : Option (List ValidationError) → String
  | none => ""
  | some errors =>
    "\nYour previous JSON had these validation problems:\n" ++
    (error_lines errors ++ "\nFix these issues and output ONLY corrected JSON.\n")

/-- `build_prompt` from `src/llm.rs` (feature-design task). -/
def build_prompt (input : FeatureDesignInput) (output_schema : TypeDef)
    (last_errors : Option (List ValidationError)) (last_json_error : Option String) : String :=
  "You are a system that strictly outputs JSON.\n" ++
  "You must produce a JSON object that matches this schema:\n\n" ++
  describe_schema output_schema 0 ++
  "\n\nThe JSON must be parseable and not contain comments or explanations.\n" ++
  "Do not wrap it in markdown code fences.\n" ++
  "Do not include control characters (null bytes, etc.) in your output.\n" ++
  "Escape special characters properly in JSON strings (use \\n for newlines, etc.).\n\n" ++
  "Context:\n" ++
  "- Repo summary: " ++ input.repo_summary ++
  "\n- Constraints:\n" ++ constraint_lines input.constraints ++
  (json_error_block last_json_error ++ validation_error_block last_errors)

/-- `build_formation_prompt` from `src/llm.rs` (formation task). -/
def build_formation_prompt (input : FormationInput) (output_schema : TypeDef)
    (last_errors : Option (List ValidationError)) (last_json_error : Option String) : String :=
  "You are a system that strictly outputs JSON.\n" ++
  "You must produce a JSON object that matches this schema:\n\n" ++
  describe_schema output_schema 0 ++
  "\n\nThe JSON must be parseable and not contain comments or explanations.\n" ++
  "Do not wrap it in markdown code fences.\n" ++
  "Do not include control characters (null bytes, etc.) in your output.\n" ++
  "Escape special characters properly in JSON strings (use \\n for newlines, etc.).\n\n" ++
  "Task: Generate 2D coordinates for unit formation.\n" ++
  "- Formation description: " ++ input.formation_description ++ "\n" ++
  "- Number of units: " ++ toString input.unit_count ++ "\n" ++
  "\n" ++
  "CRITICAL: You MUST generate EXACTLY " ++ toString input.unit_count ++
  " coordinates (x, y pairs), no more, no less.\n" ++
  "The coordinates array must contain exactly " ++ toString input.unit_count ++ " items.\n" ++
  "Coordinates should be reasonable 2D positions (typically between 0-100 for x and y).\n" ++
  "The formation should be visually recognizable as the requested shape.\n" ++
  "\n" ++
  "Example output format (for 3 units):\n" ++
  "\x7b\"coordinates\":[\x7b\"x\":0.0,\"y\":0.0\x7d,\x7b\"x\":10.0,\"y\":0.0\x7d,\x7b\"x\":5.0,\"y\":10.0\x7d]\x7d\n" ++
  "\n" ++
  "CRITICAL: Output ONLY the JSON object, nothing else. No text before or after. No markdown. No explanations.\n" ++
  "The JSON must be valid and parseable. Do NOT include:\n" ++
  "- Control characters (null bytes, etc.)\n" ++
  "- Unescaped newlines or tabs inside JSON strings\n" ++
  "- Any characters outside the JSON structure\n" ++
  "- Trailing commas\n" ++
  (json_error_block last_json_error ++ validation_error_block last_errors)

/-! ## Retry orchestrators (`src/llm.rs`) -/

/-- Terminal errors of the orchestrators, mirroring the `anyhow!` messages
of the source:

* `transport`: a model-caller failure propagated by `?` (fatal, never
  retried), carrying the transport diagnostic;
* `json_parse_exhausted`: "LLM did not return valid JSON after
  {attempts} attempts. Last error: {last_error}";
* `decode_failed`: a `serde_json::from_value` failure propagated by `?`;
* `exhausted`: "LLM failed to produce valid output after {attempts}
  attempts" (no further payload — the message carries only the attempt
  count). -/
inductive GenError where
  | transport (msg : String)
  | json_parse_exhausted (attempts : Nat) (last_error : String)
  | decode_failed
  | exhausted (attempts : Nat)
deriving DecidableEq

/-- `call_llm` from `src/llm.rs`, restricted to its text transformation:
the Ollama branch cleans the response body with `clean_json_response`, the
mock-server branch returns the body unchanged. -/
def call_llm_text (is_ollama : Bool) (raw : String) : String :=
  if is_ollama then clean_json_response raw else raw

/-- The attempt loop of `generate_feature_design`.  `attempt` is the loop
index, `fuel + 1` the number of iterations the `for attempt in 0..3` loop
still has to run (so the last attempt is the one entered with `fuel = 0`
remaining after it); falling off the loop yields the `exhausted` error. -/
def generate_feature_design_loop (parse : String → Except String Json)
    (respond : Nat → String → Except String String) (is_ollama : Bool)
    (input : FeatureDesignInput) (output_schema : TypeDef) :
    Nat → Nat → Option (List ValidationError) → Option String →
    Except GenError FeatureDesignOutput
  | _, 0, _, _ => .error (.exhausted 3)
  | attempt, fuel + 1, last_errors, last_json_error =>
    let prompt := build_prompt input output_schema last_errors last_json_error
    match respond attempt prompt with
    | .error e => .error (.transport e)
    | .ok raw =>
      let llm_json_text := call_llm_text is_ollama raw
      match parse llm_json_text with
      | .error error_msg =>
        if fuel = 0 then .error (.json_parse_exhausted 3 error_msg)
        else
          generate_feature_design_loop parse respond is_ollama input output_schema
            (attempt + 1) fuel none (some error_msg)
      | .ok value =>
        match validate output_schema value with
        | .ok _ =>
          match decode_feature_design_output value with
          | some typed => .ok typed
          | none => .error .decode_failed
        | .error errors =>
          generate_feature_design_loop parse respond is_ollama input output_schema
            (attempt + 1) fuel (some errors) none

/-- `generate_feature_design` from `src/llm.rs` (`max_retries = 3`). -/
def generate_feature_design (parse : String → Except String Json)
    (respond : Nat → String → Except String String) (is_ollama : Bool)
    (input : FeatureDesignInput) (output_schema : TypeDef) :
    Except GenError FeatureDesignOutput :=
  generate_feature_design_loop parse respond is_ollama input output_schema 0 3 none none

/-- The `TypeMismatch` error the formation orchestrator synthesizes when
the decoded coordinate count differs from the requested `unit_count`. -/
def coordinate_count_error (unit_count found : Nat) : ValidationError :=
  .TypeMismatch "$.coordinates"
    ("array with exactly " ++ toString unit_count ++ " items")
    ("array with " ++ toString found ++ " items")

/-- The attempt loop of `generate_formation`, including the coordinate
count check performed after a successful validation and decode. -/
def generate_formation_loop (parse : String → Except String Json)
    (respond : Nat → String → Except String String) (is_ollama : Bool)
    (input : FormationInput) (output_schema : TypeDef) :
    Nat → Nat → Option (List ValidationError) → Option String →
    Except GenError FormationOutput
  | _, 0, _, _ => .error (.exhausted 3)
  | attempt, fuel + 1, last_errors, last_json_error =>
    let prompt := build_formation_prompt input output_schema last_errors last_json_error
    match respond attempt prompt with
    | .error e => .error (.transport e)
    | .ok raw =>
      let llm_json_text := call_llm_text is_ollama raw
      match parse llm_json_text with
      | .error error_msg =>
        if fuel = 0 then .error (.json_parse_exhausted 3 error_msg)
        else
          generate_formation_loop parse respond is_ollama input output_schema
            (attempt + 1) fuel none (some error_msg)
      | .ok value =>
        match validate output_schema value with
        | .ok _ =>
          match decode_formation_output value with
          | none => .error .decode_failed
          | some typed =>
            if typed.coordinates.length ≠ input.unit_count then
              generate_formation_loop parse respond is_ollama input output_schema
                (attempt + 1) fuel
                (some [coordinate_count_error input.unit_count typed.coordinates.length]) none
            else .ok typed
        | .error errors =>
          generate_formation_loop parse respond is_ollama input output_schema
            (attempt + 1) fuel (some errors) none

/-- `generate_formation` from `src/llm.rs` (`max_retries = 3`). -/
def generate_formation (parse : String → Except String Json)
    (respond : Nat → String → Except String String) (is_ollama : Bool)
    (input : FormationInput) (output_schema : TypeDef) :
    Except GenError FormationOutput :=
  generate_formation_loop parse respond is_ollama input output_schema 0 3 none none

/-! ## Auxiliary executable predicates used by the claims -/

/-- Whether the two-character pattern `[a, b]` occurs (contiguously)
anywhere in the list. -/
def has_pat2 (a b : Char) : List Char → Bool
  | [] => false
  | [_] => false
  | c1 :: c2 :: rest => (c1 = a && c2 = b) || has_pat2 a b (c2 :: rest)

/-- Whether the three-character pattern `[a, b, c]` occurs (contiguously)
anywhere in the list. -/
def has_pat3 (a b c : Char) : List Char → Bool
  | [] => false
  | [_] => false
  | [_, _] => false
  | c1 :: c2 :: c3 :: rest => (c1 = a && c2 = b && c3 = c) || has_pat3 a b c (c2 :: c3 :: rest)

/-- Already-clean JSON text, the precondition of the spec's idempotence
property: no surrounding whitespace, the text is a brace-delimited object
whose naive depth count closes exactly at the last character (so in
particular it is not markdown-fenced and carries no junk around the
object), no raw control characters, and no trailing-comma pattern
(`",}"`, `",]"`, `", }"`, `", ]"`).  Compact valid JSON object text whose
string literals avoid braces and these comma patterns satisfies this. -/
def is_clean_json_text (s : String) : Bool :=
  (trimChars s.data == s.data) &&
  (s.data.head? == some '{') &&
  (findCloseAux s.data 0 0 == some (s.data.length - 1)) &&
  s.data.all (fun c => 0x20 ≤ c.toNat) &&
  !(has_pat2 ',' '}' s.data) && !(has_pat2 ',' ']' s.data) &&
  !(has_pat3 ',' ' ' '}' s.data) && !(has_pat3 ',' ' ' ']' s.data)

/-- The human-readable message of each terminal orchestrator error,
mirroring the `anyhow!` format strings of `src/llm.rs`. -/
def GenError.render : GenError → String
  | .transport msg => msg
  | .json_parse_exhausted attempts last_error =>
    "LLM did not return valid JSON after " ++ toString attempts ++
    " attempts. Last error: " ++ last_error
  | .decode_failed => "serde decode error"
  | .exhausted attempts =>
    "LLM failed to produce valid output after " ++ toString attempts ++ " attempts"

/-- Whether `needle` is a prefix of the list. -/
def starts_with_chunk : List Char → List Char → Bool
  | _, [] => true
  | [], _ :: _ => false
  | c :: cs, n :: ns => c = n && starts_with_chunk cs ns

/-- Whether `needle` occurs contiguously anywhere in the list. -/
def has_chunk (needle : List Char) : List Char → Bool
  | [] => starts_with_chunk [] needle
  | c :: rest => starts_with_chunk (c :: rest) needle || has_chunk needle rest

/-! ## Validator lemmas -/

/-- Threading an accumulator through the element loop only prepends it:
the loop itself contributes the same errors whatever was accumulated. -/
theorem validate_items_append (f : Json → String → List ValidationError → List ValidationError)
    (hf : ∀ v p errs, f v p errs = errs ++ f v p []) :
    ∀ (items : List Json) (path : String) (idx : Nat) (errs : List ValidationError),
      validate_items f items path idx errs = errs ++ validate_items f items path idx [] := by
  intro items
  induction items with
  | nil => intro path idx errs; simp [validate_items]
  | cons item rest ih =>
    intro path idx errs
    simp only [validate_items]
    rw [ih, hf, ih path (idx + 1) (f item (path ++ "[" ++ toString idx ++ "]") []),
      List.append_assoc]

mutual

/-- `validate_inner` only appends to the accumulated error list. -/
theorem validate_inner_append : ∀ (ty : TypeDef) (v : Json) (path : String) (errs : List ValidationError),
    validate_inner ty v path errs = errs ++ validate_inner ty v path []
  | .Text, v, path, errs => by
    cases v <;> simp [validate_inner]
  | .Markdown, v, path, errs => by
    cases v <;> simp [validate_inner]
  | .Number, v, path, errs => by
    cases v <;> simp [validate_inner]
  | .Bool, v, path, errs => by
    cases v <;> simp [validate_inner]
  | .List inner, v, path, errs => by
    cases v <;> simp only [validate_inner] <;> try simp
    exact validate_items_append _ (fun v p e => validate_inner_append inner v p e) _ path 0 errs
  | .Object fields, v, path, errs => by
    cases v <;> simp only [validate_inner] <;> try simp
    exact validate_fields_append fields _ path errs

/-- `validate_fields` only appends to the accumulated error list. -/
theorem validate_fields_append : ∀ (fields : List (String × TypeDef)) (kvs : List (String × Json))
    (path : String) (errs : List ValidationError),
    validate_fields fields kvs path errs = errs ++ validate_fields fields kvs path []
  | [], kvs, path, errs => by simp [validate_fields]
  | (name, ty) :: rest, kvs, path, errs => by
    simp only [validate_fields]
    cases h : lookupField kvs name with
    | none =>
      dsimp only
      rw [validate_fields_append rest kvs path (errs ++ [ValidationError.MissingField (path ++ "." ++ name)]),
        validate_fields_append rest kvs path ([] ++ [ValidationError.MissingField (path ++ "." ++ name)]),
        List.nil_append, List.append_assoc]
    | some v =>
      dsimp only
      rw [validate_fields_append rest kvs path (validate_inner ty v (path ++ "." ++ name) errs),
        validate_fields_append rest kvs path (validate_inner ty v (path ++ "." ++ name) []),
        validate_inner_append ty v (path ++ "." ++ name) errs, List.append_assoc]

end

/-- The element loop collects, in order, the errors of each element
validated independently at its own indexed path. -/
theorem validate_items_spec (f : Json → String → List ValidationError → List ValidationError)
    (hf : ∀ v p errs, f v p errs = errs ++ f v p []) :
    ∀ (items : List Json) (path : String) (idx : Nat) (errs : List ValidationError),
      validate_items f items path idx errs =
        errs ++ (List.enumFrom idx items).flatMap
          (fun p => f p.2 (path ++ "[" ++ toString p.1 ++ "]") []) := by
  intro items
  induction items with
  | nil => intro path idx errs; simp [validate_items]
  | cons item rest ih =>
    intro path idx errs
    simp only [validate_items, List.enumFrom, List.flatMap_cons]
    rw [ih, hf, List.append_assoc]

/-- The field loop collects, in order, the errors of each declared field:
a `MissingField` for an absent one, the field's own validation errors for
a present one. -/
theorem validate_fields_spec :
    ∀ (fields : List (String × TypeDef)) (kvs : List (String × Json))
      (path : String) (errs : List ValidationError),
      validate_fields fields kvs path errs =
        errs ++ fields.flatMap (fun f =>
          match lookupField kvs f.1 with
          | none => [.MissingField (path ++ "." ++ f.1)]
          | some v => validate_inner f.2 v (path ++ "." ++ f.1) []) := by
  intro fields
  induction fields with
  | nil => intro kvs path errs; simp [validate_fields]
  | cons fld rest ih =>
    intro kvs path errs
    obtain ⟨name, ty⟩ := fld
    simp only [validate_fields, List.flatMap_cons]
    cases h : lookupField kvs name with
    | none => dsimp only; rw [ih, List.append_assoc]
    | some v => dsimp only; rw [ih, validate_inner_append, List.append_assoc]

/-- `validate` succeeds exactly when the error pass collects nothing. -/
theorem validate_ok_iff (ty : TypeDef) (value : Json) :
    validate ty value = .ok () ↔ validate_inner ty value "$" [] = [] := by
  unfold validate
  constructor
  · intro h
    by_cases he : (validate_inner ty value "$" []).isEmpty
    · exact List.isEmpty_iff.mp he
    · simp only [he, if_false, Bool.false_eq_true] at h
      cases h
  · intro h
    simp [h]

/-- C2.  For every schema and every JSON value, `validate` returns all
applicable errors in one pass rather than stopping at the first: an object
missing two declared fields yields two `MissingField` errors; within a
`List`, the collected errors are the concatenation of each element's
independent validation at path `parent[index]`, so a failing element does
not prevent errors from being collected for its sibling elements; within
an `Object`, the collected errors are the concatenation of each declared
field's contribution. -/
theorem validate_collects_all_errors :
    (validate (.Object [("a", .Text), ("b", .Text)]) (.obj []) =
      .error [.MissingField "$.a", .MissingField "$.b"])
    ∧ (∀ (inner : TypeDef) (items : List Json) (path : String) (errs : List ValidationError),
        validate_inner (.List inner) (.arr items) path errs =
          errs ++ (List.enumFrom 0 items).flatMap
            (fun p => validate_inner inner p.2 (path ++ "[" ++ toString p.1 ++ "]") []))
    ∧ (∀ (fields : List (String × TypeDef)) (kvs : List (String × Json))
        (path : String) (errs : List ValidationError),
        validate_inner (.Object fields) (.obj kvs) path errs =
          errs ++ fields.flatMap (fun f =>
            match lookupField kvs f.1 with
            | none => [.MissingField (path ++ "." ++ f.1)]
            | some v => validate_inner f.2 v (path ++ "." ++ f.1) [])) := by
  refine ⟨rfl, ?_, ?_⟩
  · intro inner items path errs
    simp only [validate_inner]
    exact validate_items_spec _ (fun v p e => validate_inner_append inner v p e) items path 0 errs
  · intro fields kvs path errs
    simp only [validate_inner]
    exact validate_fields_spec fields kvs path errs

/-- The validation of an object consults only the declared fields'
lookups, so two objects that agree on every declared field validate
identically. -/
theorem validate_fields_congr :
    ∀ (fields : List (String × TypeDef)) (kvs1 kvs2 : List (String × Json))
      (path : String) (errs : List ValidationError),
      (∀ f ∈ fields, lookupField kvs1 f.1 = lookupField kvs2 f.1) →
      validate_fields fields kvs1 path errs = validate_fields fields kvs2 path errs := by
  intro fields
  induction fields with
  | nil => intro kvs1 kvs2 path errs _; simp [validate_fields]
  | cons fld rest ih =>
    intro kvs1 kvs2 path errs h
    obtain ⟨name, ty⟩ := fld
    simp only [validate_fields]
    rw [h (name, ty) (List.mem_cons_self _ _)]
    exact ih kvs1 kvs2 path _ (fun f hf => h f (List.mem_cons_of_mem _ hf))

/-- Inserting a binding whose key differs from `name` in front of an
object does not change the lookup of `name`. -/
theorem lookupField_cons_ne (kvs : List (String × Json)) (k name : String) (v : Json)
    (h : k ≠ name) : lookupField ((k, v) :: kvs) name = lookupField kvs name := by
  simp [lookupField, h]

/-- C9.  For every `Object` schema and every JSON object value, keys
present in the value but not declared among the schema's fields never
produce a validation error: the result of `validate` depends only on the
lookups of the declared field names, and in particular it is unchanged by
inserting (equivalently, removing) a binding for an undeclared key. -/
theorem validate_ignores_undeclared_keys :
    (∀ (fields : List (String × TypeDef)) (kvs1 kvs2 : List (String × Json)),
      (∀ f ∈ fields, lookupField kvs1 f.1 = lookupField kvs2 f.1) →
      validate (.Object fields) (.obj kvs1) = validate (.Object fields) (.obj kvs2))
    ∧ (∀ (fields : List (String × TypeDef)) (kvs : List (String × Json)) (k : String) (v : Json),
      (∀ f ∈ fields, f.1 ≠ k) →
      validate (.Object fields) (.obj ((k, v) :: kvs)) = validate (.Object fields) (.obj kvs)) := by
  constructor
  · intro fields kvs1 kvs2 h
    unfold validate
    simp only [validate_inner]
    rw [validate_fields_congr fields kvs1 kvs2 "$" [] h]
  · intro fields kvs k v h
    unfold validate
    simp only [validate_inner]
    rw [validate_fields_congr fields ((k, v) :: kvs) kvs "$" []
      (fun f hf => lookupField_cons_ne kvs k f.1 v (fun he => h f hf he.symm))]

/-- Witness for C9: a concrete object with an undeclared extra key
validates exactly like the object without it. -/
theorem validate_ignores_undeclared_keys_witness :
    validate (.Object [("a", .Text)]) (.obj [("extra", .num 1), ("a", .str "x")]) =
      validate (.Object [("a", .Text)]) (.obj [("a", .str "x")]) :=
  validate_ignores_undeclared_keys.2 [("a", .Text)] [("a", .str "x")] "extra" (.num 1)
    (by intro f hf; simp at hf; simp [hf])

/-! ## Sanitizer lemmas -/

/-- Text whose first character is `{` is not markdown-fenced, so the fence
stage leaves it unchanged. -/
theorem strip_fences_of_head_brace : ∀ (cs : List Char), cs.head? = some '{' →
    strip_fences cs = cs
  | [], h => by cases h
  | c :: t, h => by
    have hc : c = '{' := by simpa using h
    subst hc
    have hne : ('{' :: t).take 3 ≠ ['`', '`', '`'] := by
      intro hEq
      have hstep : ('{' :: t).take 3 = '{' :: t.take 2 := rfl
      rw [hstep] at hEq
      injection hEq with h1 _
      exact absurd h1 (by decide)
    simp [strip_fences, hne]

/-- If the depth scan closes exactly at the last character, the extraction
stage returns the whole text. -/
theorem brace_slice_of_matched (cs : List Char) (hh : cs.head? = some '{')
    (hc : findCloseAux cs 0 0 = some (cs.length - 1)) : brace_slice cs = cs := by
  cases cs with
  | nil => cases hh
  | cons c t =>
    have hc' : c = '{' := by simpa using hh
    subst hc'
    have hfi : firstIdxOf '{' ('{' :: t) = some 0 := by
      simp [firstIdxOf, List.findIdx?]
    rw [brace_slice, hfi]
    simp only [List.drop_zero]
    rw [hc]
    dsimp only
    have hlen : ('{' :: t).length - 1 + 1 = ('{' :: t).length := by
      simp
    rw [hlen, List.take_length]

/-- A text without raw control characters passes the control-character
stage unchanged. -/
theorem control_filter_id : ∀ (cs : List Char), (∀ c ∈ cs, ¬ c.toNat < 0x20) →
    control_filter cs = cs
  | [], _ => rfl
  | c :: t, h => by
    have hc : ¬ c.toNat < 0x20 := h c (List.mem_cons_self _ _)
    have ht : control_filter t = t := control_filter_id t (fun x hx => h x (List.mem_cons_of_mem _ hx))
    simp only [control_filter, List.filterMap_cons] at ht ⊢
    rw [if_neg hc, ht]

/-- A text without the two-character pattern is unchanged by its
replacement. -/
theorem repl2_id (a b : Char) (rep : List Char) : ∀ (cs : List Char),
    has_pat2 a b cs = false → repl2 a b rep cs = cs
  | [], _ => rfl
  | [c], _ => rfl
  | c1 :: c2 :: rest, h => by
    rw [has_pat2] at h
    rw [Bool.or_eq_false_iff] at h
    obtain ⟨h1, h2⟩ := h
    rw [Bool.and_eq_false_iff] at h1
    have hcond : ¬ (c1 = a ∧ c2 = b) := by
      rintro ⟨ha, hb⟩
      rcases h1 with h1 | h1 <;> simp [ha, hb] at h1
    rw [repl2, if_neg hcond, repl2_id a b rep (c2 :: rest) h2]

/-- A text without the three-character pattern is unchanged by its
replacement. -/
theorem repl3_id (a b c : Char) (rep : List Char) : ∀ (cs : List Char),
    has_pat3 a b c cs = false → repl3 a b c rep cs = cs
  | [], _ => rfl
  | [x], _ => rfl
  | [x, y], _ => rfl
  | c1 :: c2 :: c3 :: rest, h => by
    rw [has_pat3] at h
    rw [Bool.or_eq_false_iff] at h
    obtain ⟨h1, h2⟩ := h
    have hcond : ¬ (c1 = a ∧ c2 = b ∧ c3 = c) := by
      rintro ⟨ha, hb, hc⟩
      subst ha; subst hb; subst hc
      simp at h1
    rw [repl3, if_neg hcond, repl3_id a b c rep (c2 :: c3 :: rest) h2]

/-- Already-clean JSON text (in the sense of `is_clean_json_text`) is a
fixed point of the sanitizer. -/
theorem clean_fixed (s : String) (h : is_clean_json_text s = true) :
    clean_json_response s = s := by
  unfold is_clean_json_text at h
  simp only [Bool.and_eq_true, beq_iff_eq, Bool.not_eq_true', List.all_eq_true,
    decide_eq_true_eq] at h
  obtain ⟨⟨⟨⟨⟨⟨⟨htrim, hhead⟩, hclose⟩, hctrl⟩, hp1⟩, hp2⟩, hp3⟩, hp4⟩ := h
  have hfix : clean_chars s.data = s.data := by
    simp only [clean_chars]
    rw [htrim, strip_fences_of_head_brace s.data hhead, htrim,
      brace_slice_of_matched s.data hhead hclose,
      control_filter_id s.data (fun c hc => by
        have := hctrl c hc
        omega),
      htrim, repl2_id _ _ _ _ hp1, repl2_id _ _ _ _ hp2,
      repl3_id _ _ _ _ _ hp3, repl3_id _ _ _ _ _ hp4, htrim]
  unfold clean_json_response
  rw [hfix]

/-- C5 counterexample.  The claim says a trailing comma before a closing
bracket is removed "with or without intervening whitespace".  With two
spaces between the comma and the bracket the sanitizer leaves the text
unchanged (the replacement patterns cover only `",]"` and `", ]"`), while
the single-space variant of the same input is cleaned — so the claim, read
over arbitrary whitespace, fails at this input. -/
theorem clean_trailing_comma_two_spaces_counterexample :
    clean_json_response "\x7b\"a\": [1,  ]\x7d" = "\x7b\"a\": [1,  ]\x7d" ∧
    clean_json_response "\x7b\"a\": [1, ]\x7d" = "\x7b\"a\": [1]\x7d" :=
  ⟨rfl, rfl⟩

/-- C5 (amended).  The sanitizer removes a trailing comma immediately
before a closing `}` or `]` when the comma and the bracket are adjacent or
separated by exactly one space; a newline or tab between them also works
because the control-character stage first turns it into a single space
(and a carriage return is dropped).  Two or more whitespace characters
between the comma and the bracket defeat the removal. -/
theorem clean_removes_trailing_commas_zero_or_one_space :
    clean_json_response "\x7b\"a\": [1,]\x7d" = "\x7b\"a\": [1]\x7d" ∧
    clean_json_response "\x7b\"a\":1,\x7d" = "\x7b\"a\":1\x7d" ∧
    clean_json_response "\x7b\"a\": [1, ]\x7d" = "\x7b\"a\": [1]\x7d" ∧
    clean_json_response "\x7b\"a\":1, \x7d" = "\x7b\"a\":1\x7d" ∧
    clean_json_response "\x7b\"a\": [1,\n]\x7d" = "\x7b\"a\": [1]\x7d" ∧
    clean_json_response "\x7b\"a\": [1,\t]\x7d" = "\x7b\"a\": [1]\x7d" ∧
    clean_json_response "\x7b\"a\": [1,\r]\x7d" = "\x7b\"a\": [1]\x7d" ∧
    clean_json_response "\x7b\"a\": [1,  ]\x7d" = "\x7b\"a\": [1,  ]\x7d" :=
  ⟨rfl, rfl, rfl, rfl, rfl, rfl, rfl, rfl⟩

/-- C6.  The sanitizer is idempotent on already-clean JSON text: such text
is a fixed point of `clean_json_response`, so cleaning twice equals
cleaning once. -/
theorem clean_idempotent_on_clean_json (s : String) (h : is_clean_json_text s = true) :
    clean_json_response (clean_json_response s) = clean_json_response s := by
  rw [clean_fixed s h, clean_fixed s h]

/-- Witness for C6 at concrete already-clean JSON text. -/
theorem clean_idempotent_on_clean_json_witness :
    is_clean_json_text "\x7b\"a\":1\x7d" = true ∧
    clean_json_response (clean_json_response "\x7b\"a\":1\x7d") =
      clean_json_response "\x7b\"a\":1\x7d" :=
  ⟨rfl, clean_idempotent_on_clean_json "\x7b\"a\":1\x7d" rfl⟩

/-! ## Orchestrator lemmas -/

/-- A successful feature-design loop result comes from a value that passed
validation and decoded to the returned record. -/
theorem generate_feature_design_loop_ok (parse : String → Except String Json)
    (respond : Nat → String → Except String String) (is_ollama : Bool)
    (input : FeatureDesignInput) (output_schema : TypeDef) :
    ∀ (fuel attempt : Nat) (le : Option (List ValidationError)) (lje : Option String)
      (typed : FeatureDesignOutput),
      generate_feature_design_loop parse respond is_ollama input output_schema
        attempt fuel le lje = .ok typed →
      ∃ value, validate output_schema value = .ok () ∧
        decode_feature_design_output value = some typed := by
  intro fuel
  induction fuel with
  | zero => intro attempt le lje typed h; simp [generate_feature_design_loop] at h
  | succ fuel ih =>
    intro attempt le lje typed h
    simp only [generate_feature_design_loop] at h
    cases hresp : respond attempt (build_prompt input output_schema le lje) with
    | error e => rw [hresp] at h; simp at h
    | ok raw =>
      rw [hresp] at h
      dsimp only at h
      cases hparse : parse (call_llm_text is_ollama raw) with
      | error msg =>
        rw [hparse] at h
        dsimp only at h
        by_cases hfz : fuel = 0
        · rw [if_pos hfz] at h; cases h
        · rw [if_neg hfz] at h
          exact ih (attempt + 1) none (some msg) typed h
      | ok value =>
        rw [hparse] at h
        dsimp only at h
        cases hval : validate output_schema value with
        | ok u =>
          cases u
          rw [hval] at h
          dsimp only at h
          cases hdec : decode_feature_design_output value with
          | none => rw [hdec] at h; cases h
          | some typed' =>
            rw [hdec] at h
            dsimp only at h
            injection h with h'
            subst h'
            exact ⟨value, hval, hdec⟩
        | error errors =>
          rw [hval] at h
          dsimp only at h
          exact ih (attempt + 1) (some errors) none typed h

/-- A successful formation loop result comes from a value that passed
validation and decoded to the returned record, and the returned coordinate
count equals the requested `unit_count`. -/
theorem generate_formation_loop_ok (parse : String → Except String Json)
    (respond : Nat → String → Except String String) (is_ollama : Bool)
    (input : FormationInput) (output_schema : TypeDef) :
    ∀ (fuel attempt : Nat) (le : Option (List ValidationError)) (lje : Option String)
      (typed : FormationOutput),
      generate_formation_loop parse respond is_ollama input output_schema
        attempt fuel le lje = .ok typed →
      ∃ value, validate output_schema value = .ok () ∧
        decode_formation_output value = some typed ∧
        typed.coordinates.length = input.unit_count := by
  intro fuel
  induction fuel with
  | zero => intro attempt le lje typed h; simp [generate_formation_loop] at h
  | succ fuel ih =>
    intro attempt le lje typed h
    simp only [generate_formation_loop] at h
    cases hresp : respond attempt (build_formation_prompt input output_schema le lje) with
    | error e => rw [hresp] at h; simp at h
    | ok raw =>
      rw [hresp] at h
      dsimp only at h
      cases hparse : parse (call_llm_text is_ollama raw) with
      | error msg =>
        rw [hparse] at h
        dsimp only at h
        by_cases hfz : fuel = 0
        · rw [if_pos hfz] at h; cases h
        · rw [if_neg hfz] at h
          exact ih (attempt + 1) none (some msg) typed h
      | ok value =>
        rw [hparse] at h
        dsimp only at h
        cases hval : validate output_schema value with
        | ok u =>
          cases u
          rw [hval] at h
          dsimp only at h
          cases hdec : decode_formation_output value with
          | none => rw [hdec] at h; cases h
          | some typed' =>
            rw [hdec] at h
            dsimp only at h
            by_cases hlen : typed'.coordinates.length ≠ input.unit_count
            · rw [if_pos hlen] at h
              exact ih (attempt + 1) _ none typed h
            · rw [if_neg hlen] at h
              injection h with h'
              subst h'
              exact ⟨value, hval, hdec, by omega⟩
        | error errors =>
          rw [hval] at h
          dsimp only at h
          exact ih (attempt + 1) (some errors) none typed h

/-- The feature-design loop entered at `attempt` with `fuel` remaining
iterations consults the model caller only at attempt indices below
`attempt + fuel`. -/
theorem generate_feature_design_loop_congr (parse : String → Except String Json)
    (respond respond' : Nat → String → Except String String) (is_ollama : Bool)
    (input : FeatureDesignInput) (output_schema : TypeDef) :
    ∀ (fuel attempt : Nat) (le : Option (List ValidationError)) (lje : Option String),
      (∀ n p, attempt ≤ n → n < attempt + fuel → respond n p = respond' n p) →
      generate_feature_design_loop parse respond is_ollama input output_schema
        attempt fuel le lje =
      generate_feature_design_loop parse respond' is_ollama input output_schema
        attempt fuel le lje := by
  intro fuel
  induction fuel with
  | zero => intro attempt le lje _; rfl
  | succ fuel ih =>
    intro attempt le lje h
    have hr : respond attempt (build_prompt input output_schema le lje) =
        respond' attempt (build_prompt input output_schema le lje) :=
      h attempt _ (Nat.le_refl _) (by omega)
    have ih' : ∀ le' lje', generate_feature_design_loop parse respond is_ollama input
          output_schema (attempt + 1) fuel le' lje' =
        generate_feature_design_loop parse respond' is_ollama input output_schema
          (attempt + 1) fuel le' lje' :=
      fun le' lje' => ih (attempt + 1) le' lje' (fun n p ha hb => h n p (by omega) (by omega))
    simp only [generate_feature_design_loop, hr]
    cases respond' attempt (build_prompt input output_schema le lje) with
    | error e => rfl
    | ok raw =>
      dsimp only
      cases parse (call_llm_text is_ollama raw) with
      | error msg =>
        dsimp only
        by_cases hfz : fuel = 0
        · rw [if_pos hfz, if_pos hfz]
        · rw [if_neg hfz, if_neg hfz]; exact ih' none (some msg)
      | ok value =>
        dsimp only
        cases validate output_schema value with
        | ok u => rfl
        | error errors => exact ih' (some errors) none

/-- The formation loop entered at `attempt` with `fuel` remaining
iterations consults the model caller only at attempt indices below
`attempt + fuel`. -/
theorem generate_formation_loop_congr (parse : String → Except String Json)
    (respond respond' : Nat → String → Except String String) (is_ollama : Bool)
    (input : FormationInput) (output_schema : TypeDef) :
    ∀ (fuel attempt : Nat) (le : Option (List ValidationError)) (lje : Option String),
      (∀ n p, attempt ≤ n → n < attempt + fuel → respond n p = respond' n p) →
      generate_formation_loop parse respond is_ollama input output_schema
        attempt fuel le lje =
      generate_formation_loop parse respond' is_ollama input output_schema
        attempt fuel le lje := by
  intro fuel
  induction fuel with
  | zero => intro attempt le lje _; rfl
  | succ fuel ih =>
    intro attempt le lje h
    have hr : respond attempt (build_formation_prompt input output_schema le lje) =
        respond' attempt (build_formation_prompt input output_schema le lje) :=
      h attempt _ (Nat.le_refl _) (by omega)
    have ih' : ∀ le' lje', generate_formation_loop parse respond is_ollama input
          output_schema (attempt + 1) fuel le' lje' =
        generate_formation_loop parse respond' is_ollama input output_schema
          (attempt + 1) fuel le' lje' :=
      fun le' lje' => ih (attempt + 1) le' lje' (fun n p ha hb => h n p (by omega) (by omega))
    simp only [generate_formation_loop, hr]
    cases respond' attempt (build_formation_prompt input output_schema le lje) with
    | error e => rfl
    | ok raw =>
      dsimp only
      cases parse (call_llm_text is_ollama raw) with
      | error msg =>
        dsimp only
        by_cases hfz : fuel = 0
        · rw [if_pos hfz, if_pos hfz]
        · rw [if_neg hfz, if_neg hfz]; exact ih' none (some msg)
      | ok value =>
        dsimp only
        cases validate output_schema value with
        | ok u =>
          dsimp only
          cases decode_formation_output value with
          | none => rfl
          | some typed =>
            dsimp only
            by_cases hlen : typed.coordinates.length ≠ input.unit_count
            · rw [if_pos hlen, if_pos hlen]; exact ih' _ none
            · rw [if_neg hlen, if_neg hlen]
        | error errors => exact ih' (some errors) none

/-- With a model caller that always answers and a parser that rejects
every text, the feature-design loop terminates in the parse-exhausted
error. -/
theorem generate_feature_design_loop_unparseable (parse : String → Except String Json)
    (respond : Nat → String → Except String String) (is_ollama : Bool)
    (input : FeatureDesignInput) (output_schema : TypeDef)
    (h1 : ∀ n p, ∃ r, respond n p = .ok r) (h2 : ∀ s, ∃ m, parse s = .error m) :
    ∀ (fuel attempt : Nat) (le : Option (List ValidationError)) (lje : Option String),
      1 ≤ fuel →
      ∃ m, generate_feature_design_loop parse respond is_ollama input output_schema
        attempt fuel le lje = .error (.json_parse_exhausted 3 m) := by
  intro fuel
  induction fuel with
  | zero => intro attempt le lje hf; omega
  | succ fuel ih =>
    intro attempt le lje _
    obtain ⟨r, hr⟩ := h1 attempt (build_prompt input output_schema le lje)
    obtain ⟨m, hm⟩ := h2 (call_llm_text is_ollama r)
    by_cases hfz : fuel = 0
    · exact ⟨m, by simp only [generate_feature_design_loop, hr, hm]; rw [if_pos hfz]⟩
    · obtain ⟨m', hrec⟩ := ih (attempt + 1) none (some m) (by omega)
      exact ⟨m', by simp only [generate_feature_design_loop, hr, hm]; rw [if_neg hfz]; exact hrec⟩

/-- With a model caller that always answers and a parser that rejects
every text, the formation loop terminates in the parse-exhausted error. -/
theorem generate_formation_loop_unparseable (parse : String → Except String Json)
    (respond : Nat → String → Except String String) (is_ollama : Bool)
    (input : FormationInput) (output_schema : TypeDef)
    (h1 : ∀ n p, ∃ r, respond n p = .ok r) (h2 : ∀ s, ∃ m, parse s = .error m) :
    ∀ (fuel attempt : Nat) (le : Option (List ValidationError)) (lje : Option String),
      1 ≤ fuel →
      ∃ m, generate_formation_loop parse respond is_ollama input output_schema
        attempt fuel le lje = .error (.json_parse_exhausted 3 m) := by
  intro fuel
  induction fuel with
  | zero => intro attempt le lje hf; omega
  | succ fuel ih =>
    intro attempt le lje _
    obtain ⟨r, hr⟩ := h1 attempt (build_formation_prompt input output_schema le lje)
    obtain ⟨m, hm⟩ := h2 (call_llm_text is_ollama r)
    by_cases hfz : fuel = 0
    · exact ⟨m, by simp only [generate_formation_loop, hr, hm]; rw [if_pos hfz]⟩
    · obtain ⟨m', hrec⟩ := ih (attempt + 1) none (some m) (by omega)
      exact ⟨m', by simp only [generate_formation_loop, hr, hm]; rw [if_neg hfz]; exact hrec⟩

/-- With a model caller that always answers and a parser that always
yields a value failing validation, the feature-design loop falls off its
attempt ceiling into the `exhausted` error — which carries the attempt
count and nothing else. -/
theorem generate_feature_design_loop_validation_exhausts (parse : String → Except String Json)
    (respond : Nat → String → Except String String) (is_ollama : Bool)
    (input : FeatureDesignInput) (output_schema : TypeDef)
    (h1 : ∀ n p, ∃ r, respond n p = .ok r)
    (h2 : ∀ s, ∃ v errs, parse s = .ok v ∧ validate output_schema v = .error errs) :
    ∀ (fuel attempt : Nat) (le : Option (List ValidationError)) (lje : Option String),
      generate_feature_design_loop parse respond is_ollama input output_schema
        attempt fuel le lje = .error (.exhausted 3) := by
  intro fuel
  induction fuel with
  | zero => intro attempt le lje; rfl
  | succ fuel ih =>
    intro attempt le lje
    obtain ⟨r, hr⟩ := h1 attempt (build_prompt input output_schema le lje)
    obtain ⟨v, errs, hv, hverr⟩ := h2 (call_llm_text is_ollama r)
    simp only [generate_feature_design_loop, hr, hv, hverr]
    exact ih (attempt + 1) (some errs) none

/-- The formation analogue of
`generate_feature_design_loop_validation_exhausts`. -/
theorem generate_formation_loop_validation_exhausts (parse : String → Except String Json)
    (respond : Nat → String → Except String String) (is_ollama : Bool)
    (input : FormationInput) (output_schema : TypeDef)
    (h1 : ∀ n p, ∃ r, respond n p = .ok r)
    (h2 : ∀ s, ∃ v errs, parse s = .ok v ∧ validate output_schema v = .error errs) :
    ∀ (fuel attempt : Nat) (le : Option (List ValidationError)) (lje : Option String),
      generate_formation_loop parse respond is_ollama input output_schema
        attempt fuel le lje = .error (.exhausted 3) := by
  intro fuel
  induction fuel with
  | zero => intro attempt le lje; rfl
  | succ fuel ih =>
    intro attempt le lje
    obtain ⟨r, hr⟩ := h1 attempt (build_formation_prompt input output_schema le lje)
    obtain ⟨v, errs, hv, hverr⟩ := h2 (call_llm_text is_ollama r)
    simp only [generate_formation_loop, hr, hv, hverr]
    exact ih (attempt + 1) (some errs) none

/-- Running the feature-design loop against the Ollama-style caller equals
running it against the mock-style caller with the parser pre-composed with
the sanitizer: the Ollama branch is the only one that sanitizes. -/
theorem generate_feature_design_loop_ollama_eq_preclean (parse : String → Except String Json)
    (respond : Nat → String → Except String String)
    (input : FeatureDesignInput) (output_schema : TypeDef) :
    ∀ (fuel attempt : Nat) (le : Option (List ValidationError)) (lje : Option String),
      generate_feature_design_loop parse respond true input output_schema attempt fuel le lje =
      generate_feature_design_loop (fun s => parse (clean_json_response s)) respond false
        input output_schema attempt fuel le lje := by
  have hct : ∀ r, call_llm_text true r = clean_json_response r := fun r => rfl
  have hcf : ∀ r, call_llm_text false r = r := fun r => rfl
  intro fuel
  induction fuel with
  | zero => intro attempt le lje; simp only [generate_feature_design_loop]
  | succ fuel ih =>
    intro attempt le lje
    simp only [generate_feature_design_loop, hct, hcf]
    cases respond attempt (build_prompt input output_schema le lje) with
    | error e => rfl
    | ok raw =>
      dsimp only
      cases parse (clean_json_response raw) with
      | error msg =>
        dsimp only
        by_cases hfz : fuel = 0
        · rw [if_pos hfz, if_pos hfz]
        · rw [if_neg hfz, if_neg hfz]; exact ih (attempt + 1) none (some msg)
      | ok value =>
        dsimp only
        cases validate output_schema value with
        | ok u => rfl
        | error errors => exact ih (attempt + 1) (some errors) none

/-- The formation analogue of
`generate_feature_design_loop_ollama_eq_preclean`. -/
theorem generate_formation_loop_ollama_eq_preclean (parse : String → Except String Json)
    (respond : Nat → String → Except String String)
    (input : FormationInput) (output_schema : TypeDef) :
    ∀ (fuel attempt : Nat) (le : Option (List ValidationError)) (lje : Option String),
      generate_formation_loop parse respond true input output_schema attempt fuel le lje =
      generate_formation_loop (fun s => parse (clean_json_response s)) respond false
        input output_schema attempt fuel le lje := by
  have hct : ∀ r, call_llm_text true r = clean_json_response r := fun r => rfl
  have hcf : ∀ r, call_llm_text false r = r := fun r => rfl
  intro fuel
  induction fuel with
  | zero => intro attempt le lje; simp only [generate_formation_loop]
  | succ fuel ih =>
    intro attempt le lje
    simp only [generate_formation_loop, hct, hcf]
    cases respond attempt (build_formation_prompt input output_schema le lje) with
    | error e => rfl
    | ok raw =>
      dsimp only
      cases parse (clean_json_response raw) with
      | error msg =>
        dsimp only
        by_cases hfz : fuel = 0
        · rw [if_pos hfz, if_pos hfz]
        · rw [if_neg hfz, if_neg hfz]; exact ih (attempt + 1) none (some msg)
      | ok value =>
        dsimp only
        cases validate output_schema value with
        | ok u =>
          dsimp only
          cases decode_formation_output value with
          | none => rfl
          | some typed =>
            dsimp only
            by_cases hlen : typed.coordinates.length ≠ input.unit_count
            · rw [if_pos hlen, if_pos hlen]; exact ih (attempt + 1) _ none
            · rw [if_neg hlen, if_neg hlen]
        | error errors => exact ih (attempt + 1) (some errors) none

/-! ## Claim theorems: orchestrator -/

/-- C1.  Whenever an orchestrator (`generate_feature_design` or
`generate_formation`) returns a success value — for any parser, model
caller, caller flavour, task input and schema — the JSON value the result
was decoded from passed `validate` against the schema; a value that parsed
but failed validation is never returned. -/
theorem orchestrator_returns_only_validated :
    (∀ (parse : String → Except String Json) (respond : Nat → String → Except String String)
      (is_ollama : Bool) (input : FeatureDesignInput) (output_schema : TypeDef)
      (typed : FeatureDesignOutput),
      generate_feature_design parse respond is_ollama input output_schema = .ok typed →
      ∃ value, validate output_schema value = .ok () ∧
        decode_feature_design_output value = some typed)
    ∧ (∀ (parse : String → Except String Json) (respond : Nat → String → Except String String)
      (is_ollama : Bool) (input : FormationInput) (output_schema : TypeDef)
      (typed : FormationOutput),
      generate_formation parse respond is_ollama input output_schema = .ok typed →
      ∃ value, validate output_schema value = .ok () ∧
        decode_formation_output value = some typed) := by
  constructor
  · intro parse respond is_ollama input output_schema typed h
    exact generate_feature_design_loop_ok parse respond is_ollama input output_schema
      3 0 none none typed h
  · intro parse respond is_ollama input output_schema typed h
    obtain ⟨value, h1, h2, _⟩ := generate_formation_loop_ok parse respond is_ollama input
      output_schema 3 0 none none typed h
    exact ⟨value, h1, h2⟩

/-- Witness for C1: a concrete first-attempt success, with the validated
value exhibited. -/
theorem orchestrator_returns_only_validated_witness :
    ∃ value, validate feature_design_output_typedef value = .ok () ∧
      decode_feature_design_output value = some ⟨"n", "r", [], []⟩ :=
  orchestrator_returns_only_validated.1
    (fun s => if s = "RAW" then
      .ok (.obj [("name", .str "n"), ("rationale", .str "r"),
        ("components", .arr []), ("risks", .arr [])])
      else .error "bad")
    (fun _ _ => .ok "RAW") false ⟨"x", []⟩ feature_design_output_typedef
    ⟨"n", "r", [], []⟩ rfl

/-- C3.  Both orchestrators run at most 3 attempts and always terminate
(they are total functions of their inputs): the result never depends on
the model caller's behaviour at attempt indices `≥ 3`, and with a caller
that always answers text the parser rejects, the result is the terminal
parse-failure error carrying the attempt count 3. -/
theorem orchestrator_at_most_three_attempts :
    (∀ (parse : String → Except String Json)
      (respond respond' : Nat → String → Except String String) (is_ollama : Bool)
      (input : FeatureDesignInput) (output_schema : TypeDef),
      (∀ n p, n < 3 → respond n p = respond' n p) →
      generate_feature_design parse respond is_ollama input output_schema =
        generate_feature_design parse respond' is_ollama input output_schema)
    ∧ (∀ (parse : String → Except String Json)
      (respond respond' : Nat → String → Except String String) (is_ollama : Bool)
      (input : FormationInput) (output_schema : TypeDef),
      (∀ n p, n < 3 → respond n p = respond' n p) →
      generate_formation parse respond is_ollama input output_schema =
        generate_formation parse respond' is_ollama input output_schema)
    ∧ (∀ (parse : String → Except String Json) (respond : Nat → String → Except String String)
      (is_ollama : Bool) (input : FeatureDesignInput) (output_schema : TypeDef),
      (∀ n p, ∃ r, respond n p = .ok r) → (∀ s, ∃ m, parse s = .error m) →
      ∃ m, generate_feature_design parse respond is_ollama input output_schema =
        .error (.json_parse_exhausted 3 m))
    ∧ (∀ (parse : String → Except String Json) (respond : Nat → String → Except String String)
      (is_ollama : Bool) (input : FormationInput) (output_schema : TypeDef),
      (∀ n p, ∃ r, respond n p = .ok r) → (∀ s, ∃ m, parse s = .error m) →
      ∃ m, generate_formation parse respond is_ollama input output_schema =
        .error (.json_parse_exhausted 3 m)) := by
  refine ⟨?_, ?_, ?_, ?_⟩
  · intro parse respond respond' is_ollama input output_schema h
    exact generate_feature_design_loop_congr parse respond respond' is_ollama input
      output_schema 3 0 none none (fun n p h1 h2 => h n p (by omega))
  · intro parse respond respond' is_ollama input output_schema h
    exact generate_formation_loop_congr parse respond respond' is_ollama input
      output_schema 3 0 none none (fun n p h1 h2 => h n p (by omega))
  · intro parse respond is_ollama input output_schema h1 h2
    exact generate_feature_design_loop_unparseable parse respond is_ollama input
      output_schema h1 h2 3 0 none none (by omega)
  · intro parse respond is_ollama input output_schema h1 h2
    exact generate_formation_loop_unparseable parse respond is_ollama input
      output_schema h1 h2 3 0 none none (by omega)

/-- Witness for C3: with a caller that always answers `"junk"` and a
parser that rejects everything, the run ends in the parse-exhausted error
after 3 attempts. -/
theorem orchestrator_at_most_three_attempts_witness :
    ∃ m, generate_feature_design (fun _ => .error "not json") (fun _ _ => .ok "junk") false
      ⟨"x", []⟩ feature_design_output_typedef = .error (.json_parse_exhausted 3 m) :=
  orchestrator_at_most_three_attempts.2.2.1 (fun _ => .error "not json")
    (fun _ _ => .ok "junk") false ⟨"x", []⟩ feature_design_output_typedef
    (fun _ _ => ⟨"junk", rfl⟩) (fun _ => ⟨"not json", rfl⟩)

/-- C4 counterexample.  The claim says every attempt sanitizes the raw
response before parsing regardless of the caller flavour.  With a
markdown-fenced response, the same parser and the same caller, the
mock-server path (`is_ollama = false`) exhausts all attempts with a parse
failure — the raw, unsanitized text reached the parser — while the
Ollama path succeeds on the first attempt because only it applies
`clean_json_response`. -/
theorem sanitizer_skipped_in_mock_path_counterexample :
    generate_formation
      (fun s => if s = "\x7b\"coordinates\":[]\x7d" then
        .ok (.obj [("coordinates", .arr [])]) else .error "unparseable")
      (fun _ _ => .ok "```json\n\x7b\"coordinates\":[]\x7d\n```")
      false ⟨"d", 0⟩ formation_output_typedef
      = .error (.json_parse_exhausted 3 "unparseable")
    ∧ generate_formation
      (fun s => if s = "\x7b\"coordinates\":[]\x7d" then
        .ok (.obj [("coordinates", .arr [])]) else .error "unparseable")
      (fun _ _ => .ok "```json\n\x7b\"coordinates\":[]\x7d\n```")
      true ⟨"d", 0⟩ formation_output_typedef
      = .ok ⟨[]⟩ :=
  ⟨rfl, rfl⟩

/-- C4 (amended).  The sanitizer is applied to the raw model response
before the JSON parse only in the Ollama-style caller path; the
mock-server-style path hands the raw response text to the parse step
unchanged.  Consequently an Ollama-path run coincides with a mock-path run
whose parser is pre-composed with the sanitizer. -/
theorem sanitizer_applied_only_in_ollama_path :
    (∀ raw, call_llm_text true raw = clean_json_response raw ∧ call_llm_text false raw = raw)
    ∧ (∀ (parse : String → Except String Json) (respond : Nat → String → Except String String)
      (input : FeatureDesignInput) (output_schema : TypeDef),
      generate_feature_design parse respond true input output_schema =
        generate_feature_design (fun s => parse (clean_json_response s)) respond false
          input output_schema)
    ∧ (∀ (parse : String → Except String Json) (respond : Nat → String → Except String String)
      (input : FormationInput) (output_schema : TypeDef),
      generate_formation parse respond true input output_schema =
        generate_formation (fun s => parse (clean_json_response s)) respond false
          input output_schema) := by
  refine ⟨fun raw => ⟨rfl, rfl⟩, ?_, ?_⟩
  · intro parse respond input output_schema
    exact generate_feature_design_loop_ollama_eq_preclean parse respond input output_schema
      3 0 none none
  · intro parse respond input output_schema
    exact generate_formation_loop_ollama_eq_preclean parse respond input output_schema
      3 0 none none

/-- C7 counterexample.  The claim says that when every attempt yields
valid JSON failing validation, the terminal error surfaces all violations
of the final attempt together with the attempt count.  In the run below
every attempt's value `{}` fails validation with `MissingField $.name`,
yet the terminal error is `exhausted 3`, whose rendered message — "LLM
failed to produce valid output after 3 attempts", exactly as in the
source — carries the attempt count but no violation: it does not even
mention the path `$.name`. -/
theorem validation_exhaustion_counterexample :
    generate_feature_design (fun _ => .ok (.obj [])) (fun _ _ => .ok "x") false ⟨"x", []⟩
      (.Object [("name", .Text)]) = .error (.exhausted 3)
    ∧ validate (.Object [("name", .Text)]) (.obj []) = .error [.MissingField "$.name"]
    ∧ GenError.render (.exhausted 3) = "LLM failed to produce valid output after 3 attempts"
    ∧ has_chunk "$.name".data (GenError.render (.exhausted 3)).data = false :=
  ⟨rfl, rfl, rfl, rfl⟩

/-- C7 (amended).  When every attempt up to the ceiling produces
structurally valid JSON that fails schema validation, the orchestrator's
terminal error is the `exhausted` error reporting the attempt count only;
the final attempt's violations are fed back into intermediate prompts and
printed to the diagnostic log, but they are not part of the returned
error. -/
theorem validation_exhaustion_reports_count_only :
    (∀ (parse : String → Except String Json) (respond : Nat → String → Except String String)
      (is_ollama : Bool) (input : FeatureDesignInput) (output_schema : TypeDef),
      (∀ n p, ∃ r, respond n p = .ok r) →
      (∀ s, ∃ v errs, parse s = .ok v ∧ validate output_schema v = .error errs) →
      generate_feature_design parse respond is_ollama input output_schema =
        .error (.exhausted 3))
    ∧ (∀ (parse : String → Except String Json) (respond : Nat → String → Except String String)
      (is_ollama : Bool) (input : FormationInput) (output_schema : TypeDef),
      (∀ n p, ∃ r, respond n p = .ok r) →
      (∀ s, ∃ v errs, parse s = .ok v ∧ validate output_schema v = .error errs) →
      generate_formation parse respond is_ollama input output_schema =
        .error (.exhausted 3)) := by
  constructor
  · intro parse respond is_ollama input output_schema h1 h2
    exact generate_feature_design_loop_validation_exhausts parse respond is_ollama input
      output_schema h1 h2 3 0 none none
  · intro parse respond is_ollama input output_schema h1 h2
    exact generate_formation_loop_validation_exhausts parse respond is_ollama input
      output_schema h1 h2 3 0 none none

/-- Witness for the amended C7 at a concrete always-invalid scenario. -/
theorem validation_exhaustion_reports_count_only_witness :
    generate_feature_design (fun _ => .ok (.obj [])) (fun _ _ => .ok "x") false ⟨"x", []⟩
      (.Object [("name", .Text)]) = .error (.exhausted 3) :=
  validation_exhaustion_reports_count_only.1 (fun _ => .ok (.obj [])) (fun _ _ => .ok "x")
    false ⟨"x", []⟩ (.Object [("name", .Text)])
    (fun _ _ => ⟨"x", rfl⟩)
    (fun _ => ⟨.obj [], [.MissingField "$.name"], rfl, rfl⟩)

/-- C8.  A formation response whose decoded coordinate count differs from
the requested `unit_count` is never accepted: (1) every accepted output
has exactly `unit_count` coordinates; (2) on a mismatch the attempt
records exactly one `TypeMismatch`-shaped error at path `$.coordinates`
describing the expected versus actual count and loops — retried like any
validation failure, or exhausted when attempts run out; (3) the next
prompt then contains the feedback line rendering that error, for
`unit_count = 3` and 2 produced coordinates stating "expected array with
exactly 3 items, found array with 2 items". -/
theorem formation_count_mismatch_rejected :
    (∀ (parse : String → Except String Json) (respond : Nat → String → Except String String)
      (is_ollama : Bool) (input : FormationInput) (output_schema : TypeDef)
      (typed : FormationOutput),
      generate_formation parse respond is_ollama input output_schema = .ok typed →
      typed.coordinates.length = input.unit_count)
    ∧ (∀ (parse : String → Except String Json) (respond : Nat → String → Except String String)
      (is_ollama : Bool) (input : FormationInput) (output_schema : TypeDef)
      (attempt fuel : Nat) (le : Option (List ValidationError)) (lje : Option String)
      (raw : String) (value : Json) (typed : FormationOutput),
      respond attempt (build_formation_prompt input output_schema le lje) = .ok raw →
      parse (call_llm_text is_ollama raw) = .ok value →
      validate output_schema value = .ok () →
      decode_formation_output value = some typed →
      typed.coordinates.length ≠ input.unit_count →
      generate_formation_loop parse respond is_ollama input output_schema
        attempt (fuel + 1) le lje =
      generate_formation_loop parse respond is_ollama input output_schema
        (attempt + 1) fuel
        (some [coordinate_count_error input.unit_count typed.coordinates.length]) none)
    ∧ (∀ (input : FormationInput) (output_schema : TypeDef),
      ∃ a b, build_formation_prompt input output_schema
          (some [coordinate_count_error 3 2]) none =
        a ++ "Type mismatch at $.coordinates: expected array with exactly 3 items, found array with 2 items" ++ b) := by
  refine ⟨?_, ?_, ?_⟩
  · intro parse respond is_ollama input output_schema typed h
    obtain ⟨_, _, _, hlen⟩ := generate_formation_loop_ok parse respond is_ollama input
      output_schema 3 0 none none typed h
    exact hlen
  · intro parse respond is_ollama input output_schema attempt fuel le lje raw value typed
      hresp hparse hval hdec hlen
    simp only [generate_formation_loop, hresp, hparse, hval, hdec]
    rw [if_pos hlen]
  · intro input output_schema
    refine ⟨build_formation_prompt input output_schema none none ++
      "\nYour previous JSON had these validation problems:\n" ++ "- ",
      "\n" ++ "\nFix these issues and output ONLY corrected JSON.\n", ?_⟩
    have hd : ValidationError.display (coordinate_count_error 3 2) =
        "Type mismatch at $.coordinates: expected array with exactly 3 items, found array with 2 items" :=
      rfl
    simp only [build_formation_prompt, json_error_block, validation_error_block, error_lines,
      hd, String.append_empty, String.empty_append, String.append_assoc]

/-- Witness for C8: a 3-unit request answered with 3 coordinates is
accepted with the exact count, and a concrete 2-coordinate answer to a
3-unit request takes the mismatch transition recording the single
`$.coordinates` error. -/
theorem formation_count_mismatch_rejected_witness :
    (FormationOutput.mk [⟨1, 2⟩, ⟨3, 4⟩, ⟨5, 6⟩]).coordinates.length =
      (FormationInput.mk "line" 3).unit_count
    ∧ generate_formation_loop
        (fun _ => .ok (.obj [("coordinates", .arr [
          .obj [("x", .num 1), ("y", .num 2)], .obj [("x", .num 3), ("y", .num 4)]])]))
        (fun _ _ => .ok "r") false ⟨"line", 3⟩ formation_output_typedef 0 2 none none =
      generate_formation_loop
        (fun _ => .ok (.obj [("coordinates", .arr [
          .obj [("x", .num 1), ("y", .num 2)], .obj [("x", .num 3), ("y", .num 4)]])]))
        (fun _ _ => .ok "r") false ⟨"line", 3⟩ formation_output_typedef 1 1
        (some [coordinate_count_error 3 2]) none :=
  ⟨formation_count_mismatch_rejected.1
      (fun _ => .ok (.obj [("coordinates", .arr [
        .obj [("x", .num 1), ("y", .num 2)], .obj [("x", .num 3), ("y", .num 4)],
        .obj [("x", .num 5), ("y", .num 6)]])]))
      (fun _ _ => .ok "r") false ⟨"line", 3⟩ formation_output_typedef
      ⟨[⟨1, 2⟩, ⟨3, 4⟩, ⟨5, 6⟩]⟩ rfl,
    formation_count_mismatch_rejected.2.1
      (fun _ => .ok (.obj [("coordinates", .arr [
        .obj [("x", .num 1), ("y", .num 2)], .obj [("x", .num 3), ("y", .num 4)]])]))
      (fun _ _ => .ok "r") false ⟨"line", 3⟩ formation_output_typedef 0 1 none none
      "r" (.obj [("coordinates", .arr [
        .obj [("x", .num 1), ("y", .num 2)], .obj [("x", .num 3), ("y", .num 4)]])])
      ⟨[⟨1, 2⟩, ⟨3, 4⟩]⟩ rfl rfl rfl rfl (by decide)⟩

/-! ## Decode lemmas (C10) -/

/-- A value that validates as `Text` decodes as a string. -/
theorem valid_text_decodes (v : Json) (p : String)
    (h : validate_inner .Text v p [] = []) : (decode_string v).isSome := by
  cases v
  case str s => simp [decode_string]
  all_goals simp [validate_inner] at h

/-- A value that validates as `Markdown` decodes as a string. -/
theorem valid_markdown_decodes (v : Json) (p : String)
    (h : validate_inner .Markdown v p [] = []) : (decode_string v).isSome := by
  cases v
  case str s => simp [decode_string]
  all_goals simp [validate_inner] at h

/-- A value that validates as `Number` decodes as a number. -/
theorem valid_number_decodes (v : Json) (p : String)
    (h : validate_inner .Number v p [] = []) : (decode_number v).isSome := by
  cases v
  case num n => simp [decode_number]
  all_goals simp [validate_inner] at h

/-- An error-free field pass supplies, for every declared field, a present
value whose own validation collected nothing. -/
theorem valid_fields_nil (fields : List (String × TypeDef)) (kvs : List (String × Json))
    (p : String) (h : validate_fields fields kvs p [] = []) :
    ∀ f ∈ fields, ∃ v, lookupField kvs f.1 = some v ∧
      validate_inner f.2 v (p ++ "." ++ f.1) [] = [] := by
  rw [validate_fields_spec, List.nil_append, List.flatMap_eq_nil_iff] at h
  intro f hf
  have hm := h f hf
  cases hl : lookupField kvs f.1 with
  | none => rw [hl] at hm; simp at hm
  | some v =>
    rw [hl] at hm
    exact ⟨v, rfl, hm⟩

/-- An error-free `List` pass means the value is an array all of whose
elements validate without errors at their indexed paths. -/
theorem valid_list_shape (inner : TypeDef) (v : Json) (p : String)
    (h : validate_inner (.List inner) v p [] = []) :
    ∃ items, v = .arr items ∧ ∀ pr ∈ List.enumFrom 0 items,
      validate_inner inner pr.2 (p ++ "[" ++ toString pr.1 ++ "]") [] = [] := by
  cases v
  case arr items =>
    refine ⟨items, rfl, ?_⟩
    simp only [validate_inner] at h
    rw [validate_items_spec (fun it q errs => validate_inner inner it q errs)
      (fun v' p' e' => validate_inner_append inner v' p' e'),
      List.nil_append, List.flatMap_eq_nil_iff] at h
    exact h
  all_goals simp [validate_inner] at h

/-- Element-wise decoding succeeds on a list whose members all validate
without errors, given that validation-clean members decode. -/
theorem decode_list_of_valid {α : Type} (ty : TypeDef) (f : Json → Option α)
    (hdec : ∀ it p, validate_inner ty it p [] = [] → (f it).isSome) :
    ∀ (items : List Json) (n : Nat) (basep : String),
      (∀ pr ∈ List.enumFrom n items,
        validate_inner ty pr.2 (basep ++ "[" ++ toString pr.1 ++ "]") [] = []) →
      (decode_list f items).isSome := by
  intro items
  induction items with
  | nil => intro n basep _; simp [decode_list]
  | cons it rest ih =>
    intro n basep h
    have hhd : validate_inner ty it (basep ++ "[" ++ toString n ++ "]") [] = [] :=
      h (n, it) (List.mem_cons_self _ _)
    have h1 : (f it).isSome := hdec it _ hhd
    have h2 : (decode_list f rest).isSome :=
      ih (n + 1) basep (fun pr hpr => h pr (List.mem_cons_of_mem _ hpr))
    obtain ⟨a, ha⟩ := Option.isSome_iff_exists.mp h1
    obtain ⟨as_, has⟩ := Option.isSome_iff_exists.mp h2
    simp [decode_list, ha, has]

/-- A value that validates as the component schema decodes as a
`Component`. -/
theorem valid_component_decodes (v : Json) (p : String)
    (h : validate_inner (.Object [("id", .Text), ("responsibility", .Text),
      ("api", .Markdown)]) v p [] = []) :
    (decode_component v).isSome := by
  cases v
  case obj kvs =>
    simp only [validate_inner] at h
    have hf := valid_fields_nil _ kvs p h
    obtain ⟨vid, hlid, hvid⟩ := hf ("id", .Text) (by simp)
    obtain ⟨vresp, hlresp, hvresp⟩ := hf ("responsibility", .Text) (by simp)
    obtain ⟨vapi, hlapi, hvapi⟩ := hf ("api", .Markdown) (by simp)
    obtain ⟨sid, hsid⟩ := Option.isSome_iff_exists.mp (valid_text_decodes vid _ hvid)
    obtain ⟨sresp, hsresp⟩ := Option.isSome_iff_exists.mp (valid_text_decodes vresp _ hvresp)
    obtain ⟨sapi, hsapi⟩ := Option.isSome_iff_exists.mp (valid_markdown_decodes vapi _ hvapi)
    simp at hlid hlresp hlapi
    simp [decode_component, hlid, hlresp, hlapi, hsid, hsresp, hsapi]
  all_goals simp [validate_inner] at h

/-- A value that validates as the coordinate schema decodes as a
`Coordinate`. -/
theorem valid_coordinate_decodes (v : Json) (p : String)
    (h : validate_inner (.Object [("x", .Number), ("y", .Number)]) v p [] = []) :
    (decode_coordinate v).isSome := by
  cases v
  case obj kvs =>
    simp only [validate_inner] at h
    have hf := valid_fields_nil _ kvs p h
    obtain ⟨vx, hlx, hvx⟩ := hf ("x", .Number) (by simp)
    obtain ⟨vy, hly, hvy⟩ := hf ("y", .Number) (by simp)
    obtain ⟨nx, hnx⟩ := Option.isSome_iff_exists.mp (valid_number_decodes vx _ hvx)
    obtain ⟨ny, hny⟩ := Option.isSome_iff_exists.mp (valid_number_decodes vy _ hvy)
    simp at hlx hly
    simp [decode_coordinate, hlx, hly, hnx, hny]
  all_goals simp [validate_inner] at h

/-- C10.  A JSON value accepted by `validate` against
`feature_design_output_typedef` (respectively `formation_output_typedef`)
always decodes into the corresponding output record, so the error branch
of the decode step that follows a successful validation is unreachable. -/
theorem validated_value_always_decodes :
    (∀ value, validate feature_design_output_typedef value = .ok () →
      (decode_feature_design_output value).isSome)
    ∧ (∀ value, validate formation_output_typedef value = .ok () →
      (decode_formation_output value).isSome) := by
  constructor
  · intro value h
    rw [validate_ok_iff] at h
    cases value
    case obj kvs =>
      simp only [feature_design_output_typedef, validate_inner] at h
      have hf := valid_fields_nil _ kvs "$" h
      obtain ⟨vname, hlname, hvname⟩ := hf ("name", .Text) (by simp)
      obtain ⟨vrat, hlrat, hvrat⟩ := hf ("rationale", .Markdown) (by simp)
      obtain ⟨vcomp, hlcomp, hvcomp⟩ := hf ("components", .List (.Object [("id", .Text),
        ("responsibility", .Text), ("api", .Markdown)])) (by simp)
      obtain ⟨vrisks, hlrisks, hvrisks⟩ := hf ("risks", .List .Text) (by simp)
      obtain ⟨sname, hsname⟩ := Option.isSome_iff_exists.mp (valid_text_decodes vname _ hvname)
      obtain ⟨srat, hsrat⟩ := Option.isSome_iff_exists.mp (valid_markdown_decodes vrat _ hvrat)
      obtain ⟨comps, hcomps, hcvalid⟩ := valid_list_shape _ vcomp _ hvcomp
      obtain ⟨risks, hrisks, hrvalid⟩ := valid_list_shape _ vrisks _ hvrisks
      have hdc : (decode_list decode_component comps).isSome :=
        decode_list_of_valid _ decode_component valid_component_decodes comps 0 _ hcvalid
      have hdr : (decode_list decode_string risks).isSome :=
        decode_list_of_valid _ decode_string valid_text_decodes risks 0 _ hrvalid
      obtain ⟨cs, hcs⟩ := Option.isSome_iff_exists.mp hdc
      obtain ⟨rs, hrs⟩ := Option.isSome_iff_exists.mp hdr
      subst hcomps
      subst hrisks
      simp at hlname hlrat hlcomp hlrisks
      simp [decode_feature_design_output, hlname, hlrat, hlcomp, hlrisks, hsname, hsrat,
        hcs, hrs]
    all_goals simp [feature_design_output_typedef, validate_inner] at h
  · intro value h
    rw [validate_ok_iff] at h
    cases value
    case obj kvs =>
      simp only [formation_output_typedef, validate_inner] at h
      have hf := valid_fields_nil _ kvs "$" h
      obtain ⟨vcoord, hlcoord, hvcoord⟩ := hf ("coordinates", .List (.Object [("x", .Number),
        ("y", .Number)])) (by simp)
      obtain ⟨coords, hcoords, hcvalid⟩ := valid_list_shape _ vcoord _ hvcoord
      have hdc : (decode_list decode_coordinate coords).isSome :=
        decode_list_of_valid _ decode_coordinate valid_coordinate_decodes coords 0 _ hcvalid
      obtain ⟨cs, hcs⟩ := Option.isSome_iff_exists.mp hdc
      subst hcoords
      simp at hlcoord
      simp [decode_formation_output, hlcoord, hcs]
    all_goals simp [formation_output_typedef, validate_inner] at h

/-- Witness for C10 at a concrete validated value. -/
theorem validated_value_always_decodes_witness :
    (decode_feature_design_output (.obj [("name", .str "n"), ("rationale", .str "r"),
      ("components", .arr [.obj [("id", .str "c1"), ("responsibility", .str "resp"),
        ("api", .str "a")]]),
      ("risks", .arr [.str "risk1"])])).isSome :=
  validated_value_always_decodes.1
    (.obj [("name", .str "n"), ("rationale", .str "r"),
      ("components", .arr [.obj [("id", .str "c1"), ("responsibility", .str "resp"),
        ("api", .str "a")]]),
      ("risks", .arr [.str "risk1"])]) rfl
